import Mathlib

/-!
Verification of the trade-lab aggregation pipeline.

This file gives a shallow embedding of the numeric core of the repository:
the Black-Scholes gamma primitive (`black_scholes.py`), the by-strike
gamma-exposure aggregation and zero-gamma interpolation (`GEX.py`), the
near-spot net gamma exposure (`NetGEX.py`), the directional gamma imbalance
(`DirectionalGammaImbalance.py`), and the snapshot time-series loader shared
by `NetGEX.load_and_calculate` and
`DirectionalGammaImbalance.load_and_calculate`.

Exact rational arithmetic (`ℚ`) stands in for Python floats in the
aggregation code; the Black-Scholes primitive, which uses `log`, `exp` and
`sqrt`, is embedded over `ℝ`.  Pandas dataframes are embedded as lists of
rows; a dataframe column that may be absent (`underlying_price`) is tracked
by an explicit flag.  Operations that raise Python exceptions are embedded
with `Option`/`Except` results.
-/

/-- `contract_type` column values (`CALL`/`PUT`). -/
inductive ContractType
  | CALL
  | PUT
deriving DecidableEq, Repr, Inhabited

/-- One option-chain row, with the columns consumed by the core. -/
structure OptionRow where
  strike : ℚ
  contract_type : ContractType
  gamma : ℚ
  open_interest : ℚ
  delta : ℚ
  underlying_price : ℚ
deriving DecidableEq, Repr, Inhabited

/-- A loaded snapshot dataframe: its rows, plus whether the
`underlying_price` column is present (the code checks
`"underlying_price" not in df.columns`). -/
structure DataFrame where
  hasUnderlyingPrice : Bool
  rows : List OptionRow
deriving DecidableEq, Repr, Inhabited

/-! ### GEX.py: legacy by-strike aggregation -/

/-- `GEX.MULTIPLIER = 100`. -/
def MULTIPLIER : ℚ := 100

/-- Per-row `gex` column from `GEX._prepare_data`:
`gamma * open_interest * MULTIPLIER * underlying_price`. -/
def legacy_gex (r : OptionRow) : ℚ :=
  r.gamma * r.open_interest * MULTIPLIER * r.underlying_price

/-- One row of the pivoted result of `GEX.calculate_gex_by_strike`
(dataframe columns `strike`, `CALL`, `PUT`, `net_gamma`). -/
structure StrikeExposure where
  strike : ℚ
  CALL : ℚ
  PUT : ℚ
  net_gamma : ℚ
deriving DecidableEq, Repr, Inhabited

/-- Insert into an ascending list (models the ascending ordering of the
pandas groupby index). -/
def insertRat (x : ℚ) : List ℚ → List ℚ
  | [] => [x]
  | y :: ys => if x ≤ y then x :: y :: ys else y :: insertRat x ys

/-- Ascending sort of rationals. -/
def sortRats (l : List ℚ) : List ℚ := l.foldr insertRat []

/-- The distinct strikes of a snapshot, ascending — the groupby/unstack
index of `calculate_gex_by_strike`. -/
def uniqueStrikes (rows : List OptionRow) : List ℚ :=
  sortRats ((rows.map (fun r => r.strike)).dedup)

/-- The summed `gex` for the group `(strike = k, contract_type = ct)`;
a `(strike, contract_type)` combination absent from the data sums over no
rows, i.e. gives `0` — this is the `unstack(fill_value=0)` fill. -/
def sumGexAt (rows : List OptionRow) (k : ℚ) (ct : ContractType) : ℚ :=
  ((rows.filter (fun r =>
      decide (r.strike = k) && decide (r.contract_type = ct))).map legacy_gex).sum

/-- The optional inclusive `[min_strike, max_strike]` mask of
`calculate_gex_by_strike` (an absent bound imposes no constraint). -/
def inStrikeRange (min_strike max_strike : Option ℚ) (k : ℚ) : Bool :=
  (match min_strike with
   | some m => decide (m ≤ k)
   | none => true) &&
  (match max_strike with
   | some m => decide (k ≤ m)
   | none => true)

/-- `GEX.calculate_gex_by_strike`: group by `(strike, contract_type)`,
sum `gex`, `unstack(fill_value=0)`, optionally mask the strike range, and
add `net_gamma = CALL - PUT`.  `unstack` only produces the columns that
occur in the data, so a snapshot with no CALL row (or no PUT row) raises a
`KeyError` at `gex_by_strike["CALL"] - gex_by_strike["PUT"]`, embedded as
`none`. -/
def calculate_gex_by_strike (rows : List OptionRow)
    (min_strike max_strike : Option ℚ) : Option (List StrikeExposure) :=
  if rows.any (fun r => decide (r.contract_type = ContractType.CALL)) &&
     rows.any (fun r => decide (r.contract_type = ContractType.PUT)) then
    some (((uniqueStrikes rows).filter (inStrikeRange min_strike max_strike)).map
      (fun k =>
        { strike := k
          CALL := sumGexAt rows k ContractType.CALL
          PUT := sumGexAt rows k ContractType.PUT
          net_gamma := sumGexAt rows k ContractType.CALL -
            sumGexAt rows k ContractType.PUT }))
  else none

/-- `np.sign` on a float column entry. -/
def rat_sign (x : ℚ) : ℚ :=
  if x < 0 then -1 else if 0 < x then 1 else 0

/-- The positions reported by
`np.where(np.sign(net_gamma).diff() != 0)[0]`.  `Series.diff()` places a
`NaN` at position 0, and `NaN != 0` is true, so position 0 is reported for
every non-empty column; position `i + 1` is reported when the sign at
`i + 1` differs from the sign at `i`. -/
def sign_changes (d : List StrikeExposure) : List Nat :=
  match d with
  | [] => []
  | _ :: _ =>
    0 :: (List.range (d.length - 1)).filterMap (fun i =>
      if rat_sign ((d[i + 1]?.getD default).net_gamma) ≠
         rat_sign ((d[i]?.getD default).net_gamma)
      then some (i + 1) else none)

/-- `np.interp(x, [x0, x1], [y0, y1])`, exactly as NumPy's `arr_interp`
computes it for a two-point `xp` (which NumPy assumes to be increasing but
does not check): the bounds checks `x > xp[-1]` and `x < xp[0]` come first,
then the linear search and the slope formula. -/
def np_interp2 (x x0 x1 y0 y1 : ℚ) : ℚ :=
  if x1 < x then y1
  else if x < x0 then y0
  else if x1 ≤ x then y1
  else if x0 = x then y0
  else y0 + (x - x0) * (y1 - y0) / (x1 - x0)

/-- `GEX.find_zero_gamma_level`: take the first reported position `idx` of
`sign_changes`, and interpolate between rows `idx` and `idx + 1`; an
out-of-range `iloc[idx + 1]` raises `IndexError`, embedded as
`Except.error`. -/
def find_zero_gamma_level (d : List StrikeExposure) : Except Unit (Option ℚ) :=
  match sign_changes d with
  | [] => Except.ok none
  | idx :: _ =>
    match d[idx]?, d[idx + 1]? with
    | some p0, some p1 =>
      Except.ok (some (np_interp2 0 p0.net_gamma p1.net_gamma p0.strike p1.strike))
    | _, _ => Except.error ()

/-! ### NetGEX.py: near-spot net gamma exposure -/

/-- `NetGEX._compute_net_gex`: signed sum over the (already filtered)
slice; the dealer-short convention flips the sign. -/
def compute_net_gex (dealer_short : Bool) (multiplier gamma_scale : ℚ)
    (rows : List OptionRow) (spot : ℚ) : ℚ :=
  if rows.isEmpty then 0
  else
    ((rows.map (fun r =>
        (if dealer_short then (-1 : ℚ) else 1) * r.gamma * r.open_interest *
          spot ^ 2 * multiplier * gamma_scale)).sum)

/-- `NetGEX._compute_net_gex_near_spot`: empty dataframe or missing
`underlying_price` column gives `0.0`; else `spot` is the first row's
`underlying_price` and the strike band `[spot - strike_width,
spot + strike_width]` (inclusive) is summed. -/
def compute_net_gex_near_spot (strike_width multiplier gamma_scale : ℚ)
    (dealer_short : Bool) (f : DataFrame) : ℚ :=
  match f.rows with
  | [] => 0
  | r :: _ =>
    if f.hasUnderlyingPrice = false then 0
    else
      compute_net_gex dealer_short multiplier gamma_scale
        (f.rows.filter (fun x =>
          decide (r.underlying_price - strike_width ≤ x.strike) &&
          decide (x.strike ≤ r.underlying_price + strike_width)))
        r.underlying_price

/-! ### DirectionalGammaImbalance.py -/

/-- The delta mask of `_calculate_dgi`:
`df["delta"].abs() >= min_abs_delta & df["delta"].abs() <= max_abs_delta`. -/
def dgi_filter (min_abs_delta max_abs_delta : ℚ) (rows : List OptionRow) :
    List OptionRow :=
  rows.filter (fun x =>
    decide (min_abs_delta ≤ |x.delta|) && decide (|x.delta| ≤ max_abs_delta))

/-- `np.clip(x, lo, hi)`. -/
def np_clip (x lo hi : ℚ) : ℚ := min (max x lo) hi

/-- `DirectionalGammaImbalance._calculate_dgi`: empty dataframe or missing
`underlying_price` column gives `0.0`; filter by delta band (empty gives
`0.0`); per-row `gex = -gamma * open_interest * spot**2 * 0.01`; sum the
`gex` column over `strike > spot` and over `strike < spot`;
`denom = |above| + |below|` (`0` gives `0.0`); else clip the ratio to
`[-1, 1]`. -/
def calculate_dgi (min_abs_delta max_abs_delta : ℚ) (f : DataFrame) : ℚ :=
  match f.rows with
  | [] => 0
  | r :: _ =>
    if f.hasUnderlyingPrice = false then 0
    else
      let spot := r.underlying_price
      let filtered := dgi_filter min_abs_delta max_abs_delta f.rows
      if filtered.isEmpty then 0
      else
        let gamma_above := ((filtered.filter (fun x => decide (spot < x.strike))).map
          (fun x => -x.gamma * x.open_interest * spot ^ 2 * (1 / 100))).sum
        let gamma_below := ((filtered.filter (fun x => decide (x.strike < spot))).map
          (fun x => -x.gamma * x.open_interest * spot ^ 2 * (1 / 100))).sum
        let denom := |gamma_above| + |gamma_below|
        if denom = 0 then 0
        else np_clip ((gamma_above - gamma_below) / denom) (-1) 1

/-- The spec's description of `computeDirectionalGammaImbalance`
(§4.3): filter rows to `|delta| ∈ [minAbsDelta, maxAbsDelta]` (empty gives
`0.0`); per-row signed gex `-gamma * openInterest * spot^2 * 0.01`;
partition by `strike > spot` vs `strike < spot`, strikes equal to spot
excluded from both; `denom = |sum_above| + |sum_below|`, `0` gives `0.0`;
else `clamp((sum_above - sum_below) / denom, -1, 1)`.  Stated separately,
in the spec's own shape, to be compared with `calculate_dgi`. -/
def computeDirectionalGammaImbalance (min_abs_delta max_abs_delta : ℚ)
    (f : DataFrame) : ℚ :=
  match f.rows with
  | [] => 0
  | r :: _ =>
    if f.hasUnderlyingPrice = false then 0
    else
      let spot := r.underlying_price
      let filtered := dgi_filter min_abs_delta max_abs_delta f.rows
      if filtered.isEmpty then 0
      else
        let sum_above := ((filtered.filter (fun x => decide (spot < x.strike))).map
          (fun x => -x.gamma * x.open_interest * spot ^ 2 * (1 / 100))).sum
        let sum_below := ((filtered.filter (fun x => decide (x.strike < spot))).map
          (fun x => -x.gamma * x.open_interest * spot ^ 2 * (1 / 100))).sum
        let denom := |sum_above| + |sum_below|
        if denom = 0 then 0
        else max (-1) (min 1 ((sum_above - sum_below) / denom))

/-! ### black_scholes.py -/

/-- `norm_pdf(x) = exp(-0.5 * x * x) / sqrt(2 * pi)`. -/
noncomputable def norm_pdf (x : ℝ) : ℝ :=
  Real.exp (-0.5 * x * x) / Real.sqrt (2 * Real.pi)

/-- The epsilon floor of `bs_gamma`. -/
noncomputable def bs_eps : ℝ := 1e-12

/-- `bs_gamma(s, k, t, sigma, r=0, q=0)`: floor `s, k, t, sigma` at
`1e-12` (`np.maximum`), then
`d1 = (log(s / k) + (r - q + 0.5 * sigma**2) * t) / (sigma * sqrt(t))` and
`gamma = norm_pdf(d1) / (s * sigma * sqrt(t))`. -/
noncomputable def bs_gamma (s k t sigma : ℝ) (r : ℝ := 0) (q : ℝ := 0) : ℝ :=
  let s := max s bs_eps
  let k := max k bs_eps
  let t := max t bs_eps
  let sigma := max sigma bs_eps
  let d1 := (Real.log (s / k) + (r - q + 0.5 * sigma ^ 2) * t) /
    (sigma * Real.sqrt t)
  norm_pdf d1 / (s * sigma * Real.sqrt t)

/-! ### The snapshot time-series loader

`NetGEX.load_and_calculate` and
`DirectionalGammaImbalance.load_and_calculate` share this logic verbatim;
it is embedded once, parameterized by the per-snapshot metric.  Filenames
are compared and split as their character lists (Python compares strings by
code point).  The external collaborators — `datetime.strptime` and
`pd.read_csv` — are abstracted: timestamp parsing is a parameter
`parseTs` (returning `none` when `strptime` raises), and each directory
entry carries `none` as its content when reading or computing on that file
raises. -/

/-- Code-point comparison of characters, as Python string comparison
does. -/
def charLt (a b : Char) : Bool := decide (a.toNat < b.toNat)

/-- Lexicographic comparison of character lists (Python `<` on
strings). -/
def lexLt : List Char → List Char → Bool
  | [], [] => false
  | [], _ :: _ => true
  | _ :: _, [] => false
  | a :: as, b :: bs =>
    if charLt a b then true else if charLt b a then false else lexLt as bs

/-- `a ≤ b` on character lists. -/
def lexLe (a b : List Char) : Bool := !lexLt b a

/-- `pre.startswith`-style test on character lists. -/
def startsWithChars : List Char → List Char → Bool
  | [], _ => true
  | _ :: _, [] => false
  | p :: ps, c :: cs => if decide (p = c) then startsWithChars ps cs else false

/-- Suffix test on character lists. -/
def endsWithChars (suf n : List Char) : Bool :=
  startsWithChars suf.reverse n.reverse

/-- Whether a filename matches the glob `pre*.csv`: it starts with `pre`,
ends with `.csv`, and is long enough that the star matches the (possibly
empty) middle. -/
def globMatch (pre n : List Char) : Bool :=
  startsWithChars pre n && endsWithChars ".csv".data n &&
    decide (pre.length + 4 ≤ n.length)

/-- One directory entry: the filename, and the outcome of
`pd.read_csv` plus the per-file numeric pipeline on it (`none` when any
step raises). -/
structure FileEntry where
  name : String
  content : Option DataFrame

/-- The error kinds of `load_and_calculate` (all `ValueError` in Python,
distinguished by their message). -/
inductive LoadError
  | invalidArgument
  | notFound
  | noValidData
deriving DecidableEq, Repr

/-- `Path.stem` for a `.csv` filename: drop the 4-character extension. -/
def fileStem (n : List Char) : List Char := n.take (n.length - 4)

/-- Python `str.split("_")` on a character list. -/
def splitUnderscore : List Char → List Char → List (List Char)
  | [], acc => [acc.reverse]
  | c :: cs, acc =>
    if decide (c = '_') then acc.reverse :: splitUnderscore cs []
    else splitUnderscore cs (c :: acc)

/-- The glob pattern head built by `load_and_calculate`:
`{symbol}_exp{expiration_filter}_{sample_date}_` when a sample date is
given, else `{symbol}_exp{expiration_filter}_`; the trailing star and
`.csv` are handled by `globMatch`. -/
def patternPre (sym expf : List Char) (sample_date : Option (List Char)) :
    List Char :=
  match sample_date with
  | some sd => sym ++ "_exp".data ++ expf ++ "_".data ++ sd ++ "_".data
  | none => sym ++ "_exp".data ++ expf ++ "_".data

/-- Stable insertion into a list of files ascending by name. -/
def insertFile (f : FileEntry) : List FileEntry → List FileEntry
  | [] => [f]
  | g :: gs =>
    if lexLe f.name.data g.name.data then f :: g :: gs else g :: insertFile f gs

/-- Python `sorted` over the globbed files (lexicographic by name). -/
def sortFiles (l : List FileEntry) : List FileEntry := l.foldr insertFile []

/-- The per-file loop body of `load_and_calculate`, over the matched files
in order.  For each file: split the stem on `_`; fewer than 4 segments
skips the file silently (`continue`); otherwise parse the timestamp from
segments 2 and 3 and load/compute — any failure there is caught, a warning
naming the file is recorded, and the file is skipped; success appends
`(timestamp, metric)`. -/
def processFiles {τ : Type} (parseTs : List Char → Option τ)
    (metric : DataFrame → ℚ) : List FileEntry → List (τ × ℚ) × List String
  | [] => ([], [])
  | f :: fs =>
    let rest := processFiles parseTs metric fs
    let parts := splitUnderscore (fileStem f.name.data) []
    if 4 ≤ parts.length then
      match parseTs (parts.getD 2 [] ++ '_' :: parts.getD 3 []) with
      | none => (rest.1, f.name :: rest.2)
      | some ts =>
        match f.content with
        | none => (rest.1, f.name :: rest.2)
        | some df => ((ts, metric df) :: rest.1, rest.2)
    else rest

/-- The series entry a single file contributes, if any. -/
def entryOf {τ : Type} (parseTs : List Char → Option τ)
    (metric : DataFrame → ℚ) (f : FileEntry) : Option (τ × ℚ) :=
  let parts := splitUnderscore (fileStem f.name.data) []
  if 4 ≤ parts.length then
    match parseTs (parts.getD 2 [] ++ '_' :: parts.getD 3 []) with
    | none => none
    | some ts =>
      match f.content with
      | none => none
      | some df => some (ts, metric df)
  else none

/-- The warning a single file contributes, if any: its own name, recorded
exactly when the file has enough segments but its timestamp parse or its
load/compute fails. -/
def warnOf {τ : Type} (parseTs : List Char → Option τ) (f : FileEntry) :
    Option String :=
  let parts := splitUnderscore (fileStem f.name.data) []
  if 4 ≤ parts.length then
    match parseTs (parts.getD 2 [] ++ '_' :: parts.getD 3 []) with
    | none => some f.name
    | some _ =>
      match f.content with
      | none => some f.name
      | some _ => none
  else none

/-- The globbed, lexicographically sorted file list
`sorted(self.data_dir.glob(pattern))`. -/
def matchedFiles (dirFiles : List FileEntry) (sym expf : String)
    (sample_date : Option String) : List FileEntry :=
  sortFiles (dirFiles.filter (fun f =>
    globMatch (patternPre sym.data expf.data (sample_date.map String.data))
      f.name.data))

/-- `load_and_calculate(symbol, expiration_filter, sample_date)` over a
directory: `symbol` and `expiration_filter` must be non-`none`; glob and
sort the directory; no match is an error; process every matched file; an
empty resulting series is an error; otherwise return the series and the
warnings. -/
def load_and_calculate {τ : Type} (parseTs : List Char → Option τ)
    (metric : DataFrame → ℚ) (dirFiles : List FileEntry)
    (symbol expiration_filter sample_date : Option String) :
    Except LoadError (List (τ × ℚ) × List String) :=
  match symbol with
  | none => Except.error LoadError.invalidArgument
  | some sym =>
    match expiration_filter with
    | none => Except.error LoadError.invalidArgument
    | some expf =>
      let csv_files := matchedFiles dirFiles sym expf sample_date
      if csv_files.isEmpty then Except.error LoadError.notFound
      else
        let res := processFiles parseTs metric csv_files
        if res.1.isEmpty then Except.error LoadError.noValidData
        else Except.ok res

/-! ### Claim theorems -/

/-- Claim C1: the claim says `find_zero_gamma_level` returns `None` on a
monotonically one-signed net-exposure sequence and on sequences of fewer
than 2 points.  The code does not: `Series.diff()` yields `NaN` at
position 0 and `NaN != 0` holds, so every non-empty sequence reports a
"sign change" at position 0.  On the all-positive sequence
`strikes = [100, 110], net = [10, 20]` the code returns `100.0` (not
`None`), on the all-negative `net = [-10, -20]` it returns `110.0`, and on
a 1-point sequence it raises `IndexError` at `iloc[idx + 1]`; only the
empty sequence yields `None`. -/
theorem findZeroGammaLevel_monotone_behavior :
    find_zero_gamma_level [⟨100, 0, 0, 10⟩, ⟨110, 0, 0, 20⟩] =
      Except.ok (some 100) ∧
    find_zero_gamma_level [⟨100, 0, 0, -10⟩, ⟨110, 0, 0, -20⟩] =
      Except.ok (some 110) ∧
    find_zero_gamma_level [⟨100, 0, 0, 10⟩] = Except.error () ∧
    find_zero_gamma_level [] = Except.ok none :=
  ⟨rfl, rfl, rfl, rfl⟩

/-- Claim C2: the claim says `find_zero_gamma_level` linearly interpolates
the first sign change, returning
`k_i + (0 - net_i) * (k_(i+1) - k_i) / (net_(i+1) - net_i)`, in particular
`105.0` on `strikes = [100, 110], net = [10, -10]`.  The code instead
returns `110.0` there: `np.interp` requires an increasing `xp`, and on the
decreasing `xp = [10, -10]` its bounds check `0 > xp[-1]` fires and
returns the right endpoint `110`.  (The interpolation formula itself would
give `105`.) -/
theorem findZeroGammaLevel_crossing_behavior :
    find_zero_gamma_level [⟨100, 0, 0, 10⟩, ⟨110, 0, 0, -10⟩] =
      Except.ok (some 110) ∧
    (100 + (0 - 10) * (110 - 100) / (-10 - 10) : ℚ) = 105 ∧
    (110 : ℚ) ≠ 105 :=
  ⟨rfl, by norm_num, by norm_num⟩

/-- Claim C9: `bs_gamma` floors `s, k, t, sigma` at `1e-12` and then
computes `norm_pdf(d1) / (s * sigma * sqrt t)`; after the floor the log
argument `s / k` and the divisor `s * sigma * sqrt t` are strictly
positive, so the computation is well defined for every real input
(including `t` or `sigma` at or below the floor) and its value is a
strictly positive real number. -/
theorem bs_gamma_wellDefined (s k t sigma r q : ℝ) :
    0 < max s bs_eps ∧ 0 < max k bs_eps ∧ 0 < max t bs_eps ∧
    0 < max sigma bs_eps ∧
    0 < max s bs_eps / max k bs_eps ∧
    0 < max s bs_eps * max sigma bs_eps * Real.sqrt (max t bs_eps) ∧
    bs_gamma s k t sigma r q =
      norm_pdf ((Real.log (max s bs_eps / max k bs_eps) +
          (r - q + 0.5 * max sigma bs_eps ^ 2) * max t bs_eps) /
        (max sigma bs_eps * Real.sqrt (max t bs_eps))) /
        (max s bs_eps * max sigma bs_eps * Real.sqrt (max t bs_eps)) ∧
    0 < bs_gamma s k t sigma r q := by
  have heps : (0 : ℝ) < bs_eps := by norm_num [bs_eps]
  have hs : 0 < max s bs_eps := lt_max_of_lt_right heps
  have hk : 0 < max k bs_eps := lt_max_of_lt_right heps
  have ht : 0 < max t bs_eps := lt_max_of_lt_right heps
  have hsig : 0 < max sigma bs_eps := lt_max_of_lt_right heps
  have hsqrt : 0 < Real.sqrt (max t bs_eps) := Real.sqrt_pos.mpr ht
  have hden : 0 < max s bs_eps * max sigma bs_eps * Real.sqrt (max t bs_eps) :=
    mul_pos (mul_pos hs hsig) hsqrt
  have hpdf : ∀ x : ℝ, 0 < norm_pdf x := fun x =>
    div_pos (Real.exp_pos _)
      (Real.sqrt_pos.mpr (by positivity))
  have heq : bs_gamma s k t sigma r q =
      norm_pdf ((Real.log (max s bs_eps / max k bs_eps) +
          (r - q + 0.5 * max sigma bs_eps ^ 2) * max t bs_eps) /
        (max sigma bs_eps * Real.sqrt (max t bs_eps))) /
        (max s bs_eps * max sigma bs_eps * Real.sqrt (max t bs_eps)) := rfl
  refine ⟨hs, hk, ht, hsig, div_pos hs hk, hden, heq, ?_⟩
  rw [heq]
  exact div_pos (hpdf _) hden

/-- `np.clip` into `[-1, 1]` is the spec's `clamp`. -/
theorem np_clip_neg_one_one (x : ℚ) : np_clip x (-1) 1 = max (-1) (min 1 x) := by
  unfold np_clip
  rcases le_total x (-1) with h | h
  · rw [max_eq_right h, min_eq_left (by norm_num : (-1 : ℚ) ≤ 1),
      min_eq_right (h.trans (by norm_num)), max_eq_left h]
  · rcases le_total x 1 with h2 | h2
    · rw [max_eq_left h, min_eq_left h2, min_eq_right h2, max_eq_right h]
    · rw [max_eq_left (le_trans (by norm_num) h2), min_eq_right h2,
        min_eq_left h2, max_eq_right (by norm_num : (-1 : ℚ) ≤ 1)]

/-- Claim C3: `_calculate_dgi` computes exactly the spec's
`computeDirectionalGammaImbalance` — delta filter, per-row signed gex
`-gamma * oi * spot^2 * 0.01`, strict above/below-spot partition (rows at
spot excluded), `clamp(ratio, -1, 1)`, and `0.0` for a zero denominator —
and in particular a snapshot whose delta-filtered rows all sit at
`strike = spot` yields `0.0`. -/
theorem calculate_dgi_matches_spec :
    (∀ minD maxD f, calculate_dgi minD maxD f =
      computeDirectionalGammaImbalance minD maxD f) ∧
    (∀ minD maxD (f : DataFrame) r rest, f.rows = r :: rest →
      (∀ x ∈ dgi_filter minD maxD f.rows, x.strike = r.underlying_price) →
      calculate_dgi minD maxD f = 0) := by
  constructor
  · intro minD maxD f
    simp only [calculate_dgi, computeDirectionalGammaImbalance,
      np_clip_neg_one_one]
  · intro minD maxD f r rest hrows hall
    obtain ⟨hU, rows⟩ := f
    simp only at hrows
    subst hrows
    cases hU with
    | false => simp [calculate_dgi]
    | true =>
      simp only [calculate_dgi]
      by_cases hemp : (dgi_filter minD maxD (r :: rest)).isEmpty
      · simp [hemp]
      · have habove :
            (dgi_filter minD maxD (r :: rest)).filter
              (fun x => decide (r.underlying_price < x.strike)) = [] := by
          rw [List.filter_eq_nil_iff]
          intro x hx
          rw [hall x hx]
          simp
        have hbelow :
            (dgi_filter minD maxD (r :: rest)).filter
              (fun x => decide (x.strike < r.underlying_price)) = [] := by
          rw [List.filter_eq_nil_iff]
          intro x hx
          rw [hall x hx]
          simp
        simp [hemp, habove, hbelow]


/-- Witness for C3: a concrete one-row snapshot whose delta-filtered rows
all sit exactly at spot evaluates to `0`. -/
theorem calculate_dgi_matches_spec_witness :
    (⟨true, [⟨100, ContractType.CALL, 1, 1, 1, 100⟩]⟩ : DataFrame).rows =
      ⟨100, ContractType.CALL, 1, 1, 1, 100⟩ :: [] ∧
    (∀ x ∈ dgi_filter 0 1
        (⟨true, [⟨100, ContractType.CALL, 1, 1, 1, 100⟩]⟩ : DataFrame).rows,
      x.strike =
        (⟨100, ContractType.CALL, 1, 1, 1, 100⟩ : OptionRow).underlying_price) ∧
    calculate_dgi 0 1 ⟨true, [⟨100, ContractType.CALL, 1, 1, 1, 100⟩]⟩ = 0 :=
  ⟨rfl, by decide, calculate_dgi_matches_spec.2 0 1 _ _ [] rfl (by decide)⟩

/-- Claim C4 counterexample: on a one-row snapshot whose single filtered
row lies above spot, the delta filter is non-empty, the denominator is
nonzero, and `_calculate_dgi` returns exactly `-1` — an endpoint of
`[-1, 1]`, not a value strictly inside it. -/
theorem calculate_dgi_attains_boundary :
    dgi_filter 0 1
        (⟨true, [⟨110, ContractType.CALL, 1, 1, 1, 100⟩]⟩ : DataFrame).rows ≠
      [] ∧
    calculate_dgi 0 1 ⟨true, [⟨110, ContractType.CALL, 1, 1, 1, 100⟩]⟩ = -1 ∧
    ¬(-1 < calculate_dgi 0 1 ⟨true, [⟨110, ContractType.CALL, 1, 1, 1, 100⟩]⟩) := by
  have hval :
      calculate_dgi 0 1 ⟨true, [⟨110, ContractType.CALL, 1, 1, 1, 100⟩]⟩ = -1 := by
    norm_num [calculate_dgi, dgi_filter, np_clip]
  refine ⟨by decide, hval, ?_⟩
  rw [hval]
  exact lt_irrefl (-1)

/-- Claim C4 (amended): `_calculate_dgi` always returns a value in the
closed interval `[-1, 1]` (the endpoints are attainable), and returns
exactly `0.0` whenever the delta filter yields no rows. -/
theorem calculate_dgi_bounded (minD maxD : ℚ) (f : DataFrame) :
    (-1 ≤ calculate_dgi minD maxD f ∧ calculate_dgi minD maxD f ≤ 1) ∧
    (dgi_filter minD maxD f.rows = [] → calculate_dgi minD maxD f = 0) := by
  have hclip : ∀ x : ℚ, -1 ≤ np_clip x (-1) 1 ∧ np_clip x (-1) 1 ≤ 1 := by
    intro x
    unfold np_clip
    exact ⟨le_min (le_max_right x (-1)) (by norm_num), min_le_right _ _⟩
  have hv : ∀ g : DataFrame, calculate_dgi minD maxD g = 0 ∨
      ∃ x, calculate_dgi minD maxD g = np_clip x (-1) 1 := by
    intro g
    simp only [calculate_dgi]
    split
    · exact Or.inl rfl
    · split
      · exact Or.inl rfl
      · split
        · exact Or.inl rfl
        · split
          · exact Or.inl rfl
          · exact Or.inr ⟨_, rfl⟩
  constructor
  · rcases hv f with h | ⟨x, h⟩
    · rw [h]
      norm_num
    · rw [h]
      exact hclip x
  · intro hfe
    obtain ⟨hU, rows⟩ := f
    cases rows with
    | nil => rfl
    | cons r rest =>
      cases hU with
      | false => rfl
      | true =>
        have hie : (dgi_filter minD maxD (r :: rest)).isEmpty = true := by
          rw [List.isEmpty_iff]
          exact hfe
        simp [calculate_dgi, hie]

/-- Witness for C4: the empty snapshot has an empty delta filter and
evaluates to `0`, inside `[-1, 1]`. -/
theorem calculate_dgi_bounded_witness :
    dgi_filter 0 1 (⟨true, []⟩ : DataFrame).rows = [] ∧
    calculate_dgi 0 1 ⟨true, []⟩ = 0 ∧
    -1 ≤ calculate_dgi 0 1 ⟨true, []⟩ :=
  ⟨rfl, (calculate_dgi_bounded 0 1 ⟨true, []⟩).2 rfl,
    (calculate_dgi_bounded 0 1 ⟨true, []⟩).1.1⟩

/-- Claim C5: `_compute_net_gex_near_spot` takes spot from the first
row's `underlying_price`, filters rows to the inclusive band
`[spot - strike_width, spot + strike_width]`, and sums
`dealerSign * gamma * open_interest * spot^2 * multiplier * gamma_scale`
over the filtered rows; an empty snapshot or a missing `underlying_price`
column yields `0.0` (and an empty band is just the empty sum). -/
theorem compute_net_gex_near_spot_spec (sw mult gs : ℚ) (ds : Bool)
    (f : DataFrame) :
    (f.rows = [] → compute_net_gex_near_spot sw mult gs ds f = 0) ∧
    (f.hasUnderlyingPrice = false →
      compute_net_gex_near_spot sw mult gs ds f = 0) ∧
    (∀ r rest, f.rows = r :: rest → f.hasUnderlyingPrice = true →
      compute_net_gex_near_spot sw mult gs ds f =
        ((f.rows.filter (fun x =>
            decide (r.underlying_price - sw ≤ x.strike) &&
            decide (x.strike ≤ r.underlying_price + sw))).map
          (fun x => (if ds then (-1 : ℚ) else 1) * x.gamma * x.open_interest *
            r.underlying_price ^ 2 * mult * gs)).sum) := by
  obtain ⟨hU, rows⟩ := f
  refine ⟨?_, ?_, ?_⟩
  · intro h
    simp only at h
    subst h
    rfl
  · intro h
    simp only at h
    subst h
    cases rows with
    | nil => rfl
    | cons r rest => rfl
  · intro r rest hr hU2
    simp only at hr hU2
    subst hr
    subst hU2
    simp only [compute_net_gex_near_spot, compute_net_gex]
    by_cases hb : ((r :: rest).filter (fun x =>
        decide (r.underlying_price - sw ≤ x.strike) &&
        decide (x.strike ≤ r.underlying_price + sw))).isEmpty
    · rw [List.isEmpty_iff] at hb
      rw [hb]
      simp
    · simp only [Bool.not_eq_true] at hb
      rw [hb]
      simp

/-- Witness for C5: a concrete one-row snapshot with the row inside the
band; the signed sum evaluates to `-2000000`. -/
theorem compute_net_gex_near_spot_spec_witness :
    (⟨true, [⟨100, ContractType.CALL, 1, 2, 1, 100⟩]⟩ : DataFrame).rows =
      ⟨100, ContractType.CALL, 1, 2, 1, 100⟩ :: [] ∧
    (⟨true, [⟨100, ContractType.CALL, 1, 2, 1, 100⟩]⟩ : DataFrame).hasUnderlyingPrice =
      true ∧
    compute_net_gex_near_spot 50 100 1 true
      ⟨true, [⟨100, ContractType.CALL, 1, 2, 1, 100⟩]⟩ = -2000000 := by
  refine ⟨rfl, rfl, ?_⟩
  rw [(compute_net_gex_near_spot_spec 50 100 1 true
    ⟨true, [⟨100, ContractType.CALL, 1, 2, 1, 100⟩]⟩).2.2
    ⟨100, ContractType.CALL, 1, 2, 1, 100⟩ [] rfl rfl]
  norm_num

/-- Membership in an insertion. -/
theorem mem_insertRat {x y : ℚ} : ∀ {l : List ℚ},
    (y ∈ insertRat x l ↔ y = x ∨ y ∈ l)
  | [] => by simp [insertRat]
  | z :: zs => by
    by_cases h : x ≤ z
    · simp [insertRat, h]
    · simp only [insertRat, if_neg h, List.mem_cons, mem_insertRat (l := zs)]
      tauto

/-- Insertion preserves ascending order. -/
theorem pairwise_insertRat {x : ℚ} : ∀ {l : List ℚ},
    l.Pairwise (· ≤ ·) → (insertRat x l).Pairwise (· ≤ ·)
  | [] => fun _ => by simp [insertRat]
  | z :: zs => fun h => by
    rw [List.pairwise_cons] at h
    obtain ⟨hz, hzs⟩ := h
    by_cases hx : x ≤ z
    · rw [insertRat, if_pos hx, List.pairwise_cons]
      refine ⟨?_, ?_⟩
      · intro a ha
        rcases List.mem_cons.mp ha with rfl | ha
        · exact hx
        · exact hx.trans (hz a ha)
      · rw [List.pairwise_cons]
        exact ⟨hz, hzs⟩
    · rw [insertRat, if_neg hx, List.pairwise_cons]
      refine ⟨?_, pairwise_insertRat hzs⟩
      intro a ha
      rcases mem_insertRat.mp ha with rfl | ha
      · exact le_of_not_le hx
      · exact hz a ha

/-- `sortRats` sorts ascending. -/
theorem sortRats_pairwise : ∀ l : List ℚ, (sortRats l).Pairwise (· ≤ ·)
  | [] => by simp [sortRats]
  | x :: xs => pairwise_insertRat (sortRats_pairwise xs)

/-- `sortRats` preserves membership. -/
theorem mem_sortRats {x : ℚ} : ∀ {l : List ℚ}, (x ∈ sortRats l ↔ x ∈ l)
  | [] => Iff.rfl
  | y :: ys => by
    show x ∈ insertRat y (sortRats ys) ↔ _
    rw [mem_insertRat, mem_sortRats (l := ys), List.mem_cons]

/-- Claim C6: `calculate_gex_by_strike` (with no strike-range bounds)
pivots the per-`(strike, contract_type)` sums of the legacy per-row
exposure into one record per strike, ascending by strike, with
`net_gamma = CALL - PUT` and absent combinations summing to `0`; the
strikes of the result are exactly the strikes occurring in the snapshot.
On the spec's concrete two-row snapshot (CALL `gamma=0.01, oi=1000`
and PUT `gamma=0.02, oi=500`, both at strike 100, spot 100,
multiplier 100) it yields `CALL = 100000`, `PUT = 100000`,
`net_gamma = 0`. -/
theorem calculate_gex_by_strike_spec :
    (∀ rows l, calculate_gex_by_strike rows none none = some l →
      l.Pairwise (fun a b => a.strike ≤ b.strike) ∧
      (∀ e ∈ l, e.CALL = sumGexAt rows e.strike ContractType.CALL ∧
        e.PUT = sumGexAt rows e.strike ContractType.PUT ∧
        e.net_gamma = e.CALL - e.PUT) ∧
      (∀ k : ℚ, (∃ r ∈ rows, r.strike = k) ↔ ∃ e ∈ l, e.strike = k)) ∧
    calculate_gex_by_strike
      [⟨100, ContractType.CALL, 1 / 100, 1000, 1, 100⟩,
       ⟨100, ContractType.PUT, 1 / 50, 500, 1, 100⟩] none none =
      some [⟨100, 100000, 100000, 0⟩] := by
  constructor
  · intro rows l h
    rw [calculate_gex_by_strike] at h
    split_ifs at h with hcond
    · rw [Option.some_inj] at h
      have hfil : (uniqueStrikes rows).filter (inStrikeRange none none) =
          uniqueStrikes rows :=
        List.filter_eq_self.mpr (fun a _ => rfl)
      rw [hfil] at h
      subst h
      refine ⟨?_, ?_, ?_⟩
      · exact List.Pairwise.map _ (fun a b hab => hab) (sortRats_pairwise _)
      · intro e he
        rcases List.mem_map.mp he with ⟨k, _, rfl⟩
        exact ⟨rfl, rfl, rfl⟩
      · intro k
        have hmem : k ∈ uniqueStrikes rows ↔ ∃ r ∈ rows, r.strike = k := by
          rw [uniqueStrikes, mem_sortRats, List.mem_dedup, List.mem_map]
        constructor
        · intro hk
          exact ⟨_, List.mem_map.mpr ⟨k, hmem.mpr hk, rfl⟩, rfl⟩
        · rintro ⟨e, he, rfl⟩
          rcases List.mem_map.mp he with ⟨k, hk, rfl⟩
          exact hmem.mp hk
  · norm_num [calculate_gex_by_strike, uniqueStrikes, sortRats, insertRat,
      sumGexAt, legacy_gex, inStrikeRange, MULTIPLIER, List.dedup_cons_of_mem,
      List.dedup_cons_of_not_mem, List.filter_cons, List.filter_nil,
      Bool.and_eq_true, decide_eq_true_eq,
      (by decide : ContractType.PUT ≠ ContractType.CALL),
      (by decide : ContractType.CALL ≠ ContractType.PUT)]

/-- Witness for C6: the pivot hypothesis holds at the spec's concrete
snapshot and the sortedness conclusion follows there. -/
theorem calculate_gex_by_strike_spec_witness :
    calculate_gex_by_strike
      [⟨100, ContractType.CALL, 1 / 100, 1000, 1, 100⟩,
       ⟨100, ContractType.PUT, 1 / 50, 500, 1, 100⟩] none none =
      some [⟨100, 100000, 100000, 0⟩] ∧
    ([⟨100, 100000, 100000, 0⟩] : List StrikeExposure).Pairwise
      (fun a b => a.strike ≤ b.strike) :=
  ⟨calculate_gex_by_strike_spec.2,
    (calculate_gex_by_strike_spec.1 _ _ calculate_gex_by_strike_spec.2).1⟩

/-- Claim C10: on a non-empty snapshot whose rows are all CALL (or all
PUT), the pivot lacks the other contract-type column and
`calculate_gex_by_strike` raises a `KeyError` (`none`) instead of filling
the missing side with 0; the missing-combination fill only applies when
both contract types occur somewhere in the snapshot, in which case a
result is returned. -/
theorem calculate_gex_by_strike_single_sided :
    (∀ (rows : List OptionRow) (minS maxS : Option ℚ), rows ≠ [] →
      ((∀ r ∈ rows, r.contract_type = ContractType.CALL) ∨
       (∀ r ∈ rows, r.contract_type = ContractType.PUT)) →
      calculate_gex_by_strike rows minS maxS = none) ∧
    (∀ (rows : List OptionRow) (minS maxS : Option ℚ),
      (∃ r ∈ rows, r.contract_type = ContractType.CALL) →
      (∃ r ∈ rows, r.contract_type = ContractType.PUT) →
      ∃ l, calculate_gex_by_strike rows minS maxS = some l) := by
  constructor
  · intro rows minS maxS hne hside
    rcases hside with hall | hall
    · have hPut :
          rows.any (fun r => decide (r.contract_type = ContractType.PUT)) =
            false := by
        rw [List.any_eq_false]
        intro r hr
        rw [hall r hr]
        decide
      rw [calculate_gex_by_strike, hPut]
      simp
    · have hCall :
          rows.any (fun r => decide (r.contract_type = ContractType.CALL)) =
            false := by
        rw [List.any_eq_false]
        intro r hr
        rw [hall r hr]
        decide
      rw [calculate_gex_by_strike, hCall]
      simp
  · intro rows minS maxS hc hp
    have hC :
        rows.any (fun r => decide (r.contract_type = ContractType.CALL)) =
          true := by
      rw [List.any_eq_true]
      obtain ⟨r, hr, he⟩ := hc
      exact ⟨r, hr, by rw [he]; rfl⟩
    have hP :
        rows.any (fun r => decide (r.contract_type = ContractType.PUT)) =
          true := by
      rw [List.any_eq_true]
      obtain ⟨r, hr, he⟩ := hp
      exact ⟨r, hr, by rw [he]; rfl⟩
    rw [calculate_gex_by_strike, hC, hP]
    exact ⟨_, rfl⟩

/-- Witness for C10: a concrete one-row all-CALL snapshot gives `none`. -/
theorem calculate_gex_by_strike_single_sided_witness :
    ([⟨100, ContractType.CALL, 1, 1, 1, 100⟩] : List OptionRow) ≠ [] ∧
    (∀ r ∈ ([⟨100, ContractType.CALL, 1, 1, 1, 100⟩] : List OptionRow),
      r.contract_type = ContractType.CALL) ∧
    calculate_gex_by_strike [⟨100, ContractType.CALL, 1, 1, 1, 100⟩]
      none none = none :=
  ⟨by decide, by decide,
    calculate_gex_by_strike_single_sided.1 _ none none (by decide)
      (Or.inl (by decide))⟩

/-- Claim C7: `load_and_calculate` fails with `invalidArgument` whenever
`symbol` or `expiration_filter` is missing, fails with `notFound` whenever
zero files match the discovery pattern, fails with `noValidData` whenever,
after attempting every matched file, the resulting series is empty, and in
every other case returns the series (with its warnings) without raising. -/
theorem load_and_calculate_errors {τ : Type} (parseTs : List Char → Option τ)
    (metric : DataFrame → ℚ) (dirFiles : List FileEntry)
    (symbol expiration_filter sample_date : Option String) :
    ((symbol = none ∨ expiration_filter = none) →
      load_and_calculate parseTs metric dirFiles symbol expiration_filter
        sample_date = Except.error LoadError.invalidArgument) ∧
    (∀ sym expf, symbol = some sym → expiration_filter = some expf →
      (matchedFiles dirFiles sym expf sample_date = [] →
        load_and_calculate parseTs metric dirFiles symbol expiration_filter
          sample_date = Except.error LoadError.notFound) ∧
      (matchedFiles dirFiles sym expf sample_date ≠ [] →
        (processFiles parseTs metric
            (matchedFiles dirFiles sym expf sample_date)).1 = [] →
        load_and_calculate parseTs metric dirFiles symbol expiration_filter
          sample_date = Except.error LoadError.noValidData) ∧
      (matchedFiles dirFiles sym expf sample_date ≠ [] →
        (processFiles parseTs metric
            (matchedFiles dirFiles sym expf sample_date)).1 ≠ [] →
        load_and_calculate parseTs metric dirFiles symbol expiration_filter
          sample_date =
          Except.ok (processFiles parseTs metric
            (matchedFiles dirFiles sym expf sample_date)))) := by
  constructor
  · rintro (rfl | rfl)
    · rfl
    · cases symbol with
      | none => rfl
      | some sym => rfl
  · intro sym expf hs he
    subst hs
    subst he
    have hb : ∀ l : List FileEntry, l ≠ [] → l.isEmpty = false := by
      intro l hl
      cases hbc : l.isEmpty
      · rfl
      · exact absurd (List.isEmpty_iff.mp hbc) hl
    have hb2 : ∀ l : List (τ × ℚ), l ≠ [] → l.isEmpty = false := by
      intro l hl
      cases hbc : l.isEmpty
      · rfl
      · exact absurd (List.isEmpty_iff.mp hbc) hl
    refine ⟨?_, ?_, ?_⟩
    · intro hm
      simp only [load_and_calculate]
      rw [hm]
      rfl
    · intro hm hp
      simp only [load_and_calculate, hb _ hm]
      rw [hp]
      rfl
    · intro hm hp
      simp only [load_and_calculate, hb _ hm, hb2 _ hp]
      rfl

/-- Witness for C7: a missing `symbol` yields `invalidArgument`. -/
theorem load_and_calculate_errors_witness :
    ((none : Option String) = none ∨ (none : Option String) = none) ∧
    load_and_calculate (fun c => some c) (fun _ => 0) [] none none none =
      Except.error LoadError.invalidArgument :=
  ⟨Or.inl rfl,
    (load_and_calculate_errors (fun c => some c) (fun _ => 0) [] none none
      none).1 (Or.inl rfl)⟩

/-- Nothing is lexicographically below the empty list. -/
theorem lexLt_nil_right : ∀ a : List Char, lexLt a [] = false := by
  intro a
  cases a <;> rfl

/-- `lexLt` is asymmetric. -/
theorem lexLt_asymm : ∀ a b : List Char, lexLt a b = true → lexLt b a = false
  | [], [] => by simp [lexLt]
  | [], _ :: _ => by simp [lexLt]
  | _ :: _, [] => by simp [lexLt]
  | a :: as, b :: bs => by
    intro h
    by_cases h1 : charLt a b = true
    · have h2 : charLt b a = false := by
        simp only [charLt, decide_eq_true_eq] at h1
        simp only [charLt, decide_eq_false_iff_not]
        omega
      simp [lexLt, h1, h2]
    · by_cases h2 : charLt b a = true
      · simp [lexLt, h1, h2] at h
      · have h3 : lexLt as bs = true := by
          simpa [lexLt, h1, h2] using h
        have h4 := lexLt_asymm as bs h3
        simp [lexLt, h1, h2, h4]

/-- `lexLe` is total. -/
theorem lexLe_total (a b : List Char) :
    lexLe a b = true ∨ lexLe b a = true := by
  unfold lexLe
  cases h : lexLt b a
  · left
    rfl
  · right
    rw [lexLt_asymm b a h]
    rfl

/-- Insertion keeps a file list adjacently ordered by name. -/
theorem chain_insertFile (f : FileEntry) :
    ∀ l : List FileEntry,
      l.Chain' (fun a b => lexLe a.name.data b.name.data = true) →
      (insertFile f l).Chain' (fun a b => lexLe a.name.data b.name.data = true)
  | [], _ => by simp [insertFile]
  | g :: gs, h => by
    rw [insertFile]
    by_cases hfg : lexLe f.name.data g.name.data = true
    · rw [if_pos hfg]
      exact List.chain'_cons.mpr ⟨hfg, h⟩
    · rw [if_neg hfg]
      have hgf : lexLe g.name.data f.name.data = true := by
        rcases lexLe_total f.name.data g.name.data with h1 | h1
        · exact absurd h1 hfg
        · exact h1
      cases gs with
      | nil =>
        rw [insertFile]
        exact List.chain'_cons.mpr ⟨hgf, List.chain'_singleton f⟩
      | cons g2 gs2 =>
        have hchain := List.chain'_cons.mp h
        have hrec := chain_insertFile f (g2 :: gs2) hchain.2
        rw [insertFile]
        by_cases hfg2 : lexLe f.name.data g2.name.data = true
        · rw [if_pos hfg2]
          refine List.chain'_cons.mpr ⟨hgf, ?_⟩
          rw [insertFile, if_pos hfg2] at hrec
          exact hrec
        · rw [if_neg hfg2]
          refine List.chain'_cons.mpr ⟨hchain.1, ?_⟩
          rw [insertFile, if_neg hfg2] at hrec
          exact hrec

/-- `sortFiles` produces a list ordered by filename. -/
theorem sortFiles_chain : ∀ l : List FileEntry,
    (sortFiles l).Chain' (fun a b => lexLe a.name.data b.name.data = true)
  | [] => List.chain'_nil
  | f :: fs => chain_insertFile f (sortFiles fs) (sortFiles_chain fs)

/-- The loop of `load_and_calculate` contributes, per matched file in
order, one series entry on success and one warning naming the file on a
caught per-file failure. -/
theorem processFiles_eq {τ : Type} (parseTs : List Char → Option τ)
    (metric : DataFrame → ℚ) :
    ∀ files : List FileEntry,
      processFiles parseTs metric files =
        (files.filterMap (entryOf parseTs metric),
         files.filterMap (warnOf parseTs))
  | [] => rfl
  | f :: fs => by
    have ih := processFiles_eq parseTs metric fs
    simp only [processFiles]
    rw [ih]
    by_cases h4 : 4 ≤ (splitUnderscore (fileStem f.name.data) []).length
    · cases hp : parseTs ((splitUnderscore (fileStem f.name.data) [])[2]?.getD [] ++
        '_' :: (splitUnderscore (fileStem f.name.data) [])[3]?.getD []) with
      | none => simp [entryOf, warnOf, h4, hp, List.filterMap_cons]
      | some ts =>
        cases hc : f.content with
        | none => simp [entryOf, warnOf, h4, hp, hc, List.filterMap_cons]
        | some df => simp [entryOf, warnOf, h4, hp, hc, List.filterMap_cons]
    · simp [entryOf, warnOf, h4, List.filterMap_cons]

/-- Claim C8: every per-file failure is caught and recorded as a warning
naming the offending file while the file is skipped; the series holds one
`(timestamp, metric)` entry per successfully processed file, in
lexicographically-sorted filename order.  Concretely, three files
timestamped `09-00-00`, `09-30-00`, `09-05-00` (listed in that directory
order) produce entries ordered `09-00-00, 09-05-00, 09-30-00`; and when
the `09-30-00` file is corrupt the series has length 2 and the warning
names that file. -/
theorem load_and_calculate_series_order :
    (∀ (τ : Type) (parseTs : List Char → Option τ) (metric : DataFrame → ℚ)
      (files : List FileEntry),
      processFiles parseTs metric files =
        (files.filterMap (entryOf parseTs metric),
         files.filterMap (warnOf parseTs))) ∧
    (∀ l : List FileEntry,
      (sortFiles l).Chain' (fun a b => lexLe a.name.data b.name.data = true)) ∧
    load_and_calculate (fun c => some c) (fun _ => 0)
      [⟨"$SPX_exp2025-12-24_2025-12-18_09-00-00.csv", some ⟨true, []⟩⟩,
       ⟨"$SPX_exp2025-12-24_2025-12-18_09-30-00.csv", some ⟨true, []⟩⟩,
       ⟨"$SPX_exp2025-12-24_2025-12-18_09-05-00.csv", some ⟨true, []⟩⟩]
      (some "$SPX") (some "2025-12-24") none =
      Except.ok ([("2025-12-18_09-00-00".data, 0),
        ("2025-12-18_09-05-00".data, 0),
        ("2025-12-18_09-30-00".data, 0)], []) ∧
    load_and_calculate (fun c => some c) (fun _ => 0)
      [⟨"$SPX_exp2025-12-24_2025-12-18_09-00-00.csv", some ⟨true, []⟩⟩,
       ⟨"$SPX_exp2025-12-24_2025-12-18_09-30-00.csv", none⟩,
       ⟨"$SPX_exp2025-12-24_2025-12-18_09-05-00.csv", some ⟨true, []⟩⟩]
      (some "$SPX") (some "2025-12-24") none =
      Except.ok ([("2025-12-18_09-00-00".data, 0),
        ("2025-12-18_09-05-00".data, 0)],
        ["$SPX_exp2025-12-24_2025-12-18_09-30-00.csv"]) :=
  ⟨fun _ parseTs metric files => processFiles_eq parseTs metric files,
    sortFiles_chain, by rfl, by rfl⟩
